import Mathlib

/-!
Shallow embedding of the openshift-rebase repository: the `apply` package
(Apply.Run, carryFlow, actionFromMessage, findFixedCarry) and the `git`
package (Log, CheckRemotes, fetchURLForRemote).  External backend calls
(go-git, the `git` binary, the filesystem) are modeled as explicit behavior
records; each embedded function additionally returns the ordered list of
backend operations it performed, so that ordering and frame claims can be
stated about the trace.
-/

namespace OpenshiftRebase

/-! ## ActionClassifier: actionRE and actionFromMessage -/

/-- Characters matched by the class in the regexp
`UPSTREAM: (?P<action>[<>\w]+):` — Go `\w` is ASCII `[0-9A-Za-z_]`,
plus the literal angle brackets of the class. -/
def isActionChar (c : Char) : Bool :=
  c == '<' || c == '>' || c.isAlphanum || c == '_'

/-- The literal part of actionRE that precedes the capture group. -/
def upstreamLit : List Char := "UPSTREAM: ".data

/-- Try to match actionRE at the start of `cs`: the literal `UPSTREAM: `,
then a nonempty maximal run of action characters, then `:`.  Since `:` is
not in the character class, the greedy `+` of the regexp deterministically
captures the maximal run. Returns the captured `action` group. -/
def matchActionAt (cs : List Char) : Option (List Char) :=
  if upstreamLit.isPrefixOf cs then
    let rest := cs.drop upstreamLit.length
    let run := rest.takeWhile isActionChar
    if run.isEmpty then none
    else
      match rest.dropWhile isActionChar with
      | ':' :: _ => some run
      | _ => none
  else none

/-- Leftmost match of actionRE: scan start positions left to right, as
`regexp.FindStringSubmatch` does. -/
def findAction : List Char → Option (List Char)
  | [] => none
  | c :: rest =>
    match matchActionAt (c :: rest) with
    | some run => some run
    | none => findAction rest

/-- `actionRE.FindStringSubmatch(message)` restricted to the `action`
capture group: `none` models the nil slice returned when there is no match;
on a match the group is always present and nonempty. -/
def findStringSubmatchAction (message : String) : Option String :=
  (findAction message.data).map List.asString

/-- `actionRE.SubexpIndex("action")`: the named group exists at index 1. -/
def subexpIndexAction : Int := 1

/-- Embedding of `actionFromMessage` (apply package).  The Go code reads
`matches[lastIndex]` without checking whether `FindStringSubmatch` returned
nil, so on a message with no match it panics with an index-out-of-range
runtime error; `none` models that panic.  The `lastIndex < 0` guard in the
source can never fire because the group name exists statically. -/
def actionFromMessage (message : String) : Option String :=
  let ms := findStringSubmatchAction message
  if subexpIndexAction < 0 then some ""
  else ms

/-! ## The classification fold performed inside Apply.Run -/

/-- Largest value of Go's 64-bit `int`, the bound `strconv.Atoi` enforces. -/
def goIntMax : Nat := 9223372036854775807

/-- Decimal value of a digit string. -/
def digitsToNat (cs : List Char) : Nat :=
  cs.foldl (fun n c => n * 10 + (c.toNat - 48)) 0

/-- Whether `strconv.Atoi` succeeds on `s`.  Captured action groups contain
only `[<>\w]` characters, so no sign character can occur: Atoi succeeds
exactly on nonempty all-digit strings whose value fits in a 64-bit int. -/
def atoiOk (s : String) : Bool :=
  !s.isEmpty && s.data.all Char.isDigit && digitsToNat s.data ≤ goIntMax

/-- The action the per-commit switch in `Apply.Run` dispatches on. -/
inductive RunAction
  | carry
  | drop
  | unknown (raw : String)
deriving DecidableEq

/-- The classification a commit message receives inside `Apply.Run`:
`actionFromMessage`, then the numeric-tag fold to `"<carry>"`, then the
switch on the action string.  `none` models the panic inherited from
`actionFromMessage` on a message with no tag. -/
def classify (message : String) : Option RunAction :=
  (actionFromMessage message).map fun action =>
    let action := if atoiOk action then "<carry>" else action
    if action = "<carry>" then .carry
    else if action = "<drop>" then .drop
    else .unknown action


/-! ## Data model: commits, errors, backend behavior, operation traces -/

/-- The fields of a go-git commit object that the apply package reads. -/
structure Commit where
  hash : String
  message : String
deriving DecidableEq

/-- Errors flowing through the apply and git packages. -/
inductive GErr
  /-- An error produced by a backend call (go-git, the git binary). -/
  | backend (s : String)
  /-- `fmt.Errorf("<context>: %w", inner)`. -/
  | wrapped (context : String) (inner : GErr)
  /-- The `os.Stat` PathError for a missing carry patch file. -/
  | statNotFound (path : String)
  /-- An `os.Getwd` failure. -/
  | getwdFailed (s : String)
  /-- go-git `Remote(name)` when no remote has that name. -/
  | remoteNotFound (name : String)
  /-- `fmt.Errorf("no fetch URLs, remote=%s", name)`. -/
  | noFetchURLs (name : String)
  /-- `fmt.Errorf("fetch URL does not match, remote=%s path=%s", ...)`. -/
  | fetchURLMismatch (name path : String)
deriving DecidableEq

/-- Behavior of the repository backend calls made by carryFlow and Run,
keyed by their arguments.  Sequential, synchronous execution means one
run observes each call as a pure function of its arguments. -/
structure RepoOps where
  cherryPick : String → Except GErr Unit
  status : Except GErr Unit
  abortCherryPick : Except GErr Unit
  applyPatch : String → Except GErr Unit
  createBranch : String → String → Except GErr Unit
  merge : String → Except GErr Unit

/-- Behavior of the filesystem calls made by findFixedCarry:
`os.Getwd` and `os.Stat` on a carry patch path. -/
structure Fs where
  getwd : Except GErr String
  stat : String → Bool

/-- One backend operation, recorded in order of execution.  Log statements
that the claims refer to (the drop record, the unknown-action record and
the manual-intervention message) are recorded alongside the backend calls. -/
inductive Op
  | getCommits
  | createBranch (name ref : String)
  | merge (ref : String)
  /-- Start of processing one commit inside the Run loop. -/
  | processing (sha : String)
  | cherryPick (sha : String)
  | status
  | abortCherryPick
  /-- The findFixedCarry lookup in the patch store for this hash. -/
  | storeLookup (sha : String)
  | applyPatch (path : String)
  /-- `klog.Infof("Dropping commit %s.", ...)`. -/
  | logDrop (sha : String)
  /-- `klog.Infof("Unkown action on commit %s: %s", ...)`. -/
  | logUnknown (sha action : String)
  /-- `klog.Errorf("Carry .../commit/%s requires manual intervention!")`. -/
  | logManual (sha : String)
deriving DecidableEq

/-! ## findFixedCarry and carryFlow -/

/-- `path.Join(cwd, "carries", carrySha)` for a clean `cwd`. -/
def carriesPath (cwd carrySha : String) : String :=
  cwd ++ "/carries/" ++ carrySha

/-- Embedding of `findFixedCarry`: resolve the working directory, stat
`<cwd>/carries/<sha>`, and return that path on success or the stat error
on a miss. -/
def findFixedCarry (fs : Fs) (carrySha : String) : Except GErr String :=
  match fs.getwd with
  | .error e => .error e
  | .ok cwd =>
    let carryPath := carriesPath cwd carrySha
    if fs.stat carryPath then .ok carryPath
    else .error (.statNotFound carryPath)

/-- Which return site of carryFlow produced the success: the immediate
return after a clean cherry-pick, or the return after applying a stored
resolution patch. -/
inductive CarryOutcome
  | appliedDirect
  | appliedViaResolution
deriving DecidableEq

/-- Embedding of `carryFlow`: cherry-pick; on failure report status, abort
the cherry-pick, look up a fixed carry patch and apply it.  The second
component is the ordered trace of backend operations performed. -/
def carryFlow (repo : RepoOps) (fs : Fs) (commit : Commit) :
    Except GErr CarryOutcome × List Op :=
  let sha := commit.hash
  match repo.cherryPick sha with
  | .ok _ => (.ok .appliedDirect, [.cherryPick sha])
  | .error _ =>
    match repo.status with
    | .error e => (.error e, [.cherryPick sha, .status])
    | .ok _ =>
      match repo.abortCherryPick with
      | .error e => (.error e, [.cherryPick sha, .status, .abortCherryPick])
      | .ok _ =>
        match findFixedCarry fs sha with
        | .error e =>
          (.error e,
           [.cherryPick sha, .status, .abortCherryPick, .storeLookup sha,
            .logManual sha])
        | .ok patch =>
          match repo.applyPatch patch with
          | .error e =>
            (.error e,
             [.cherryPick sha, .status, .abortCherryPick, .storeLookup sha,
              .applyPatch patch])
          | .ok _ =>
            (.ok .appliedViaResolution,
             [.cherryPick sha, .status, .abortCherryPick, .storeLookup sha,
              .applyPatch patch])

/-! ## Apply.Run -/

/-- Calls made by Run before the per-commit loop: `git.OpenGit` and
`carry.Log.GetCommits` (the latter lives outside the embedded sources; only
its fallible result is needed here, so it is a behavior field). -/
structure LogPort where
  openGit : Except GErr Unit
  getCommits : Except GErr (List Commit)

/-- Result of a whole run.  `panicked sha` models the runtime panic of
`actionFromMessage` while classifying the commit with hash `sha`. -/
inductive RunOutcome
  | ok
  | failed (e : GErr)
  | panicked (sha : String)
deriving DecidableEq

/-- The per-commit loop of `Apply.Run`.  `formatMessage` is
`utils.FormatMessage` (outside the embedded sources), applied to the
commit message before classification. -/
def runLoop (repo : RepoOps) (fs : Fs) (formatMessage : String → String) :
    List Commit → RunOutcome × List Op
  | [] => (.ok, [])
  | c :: rest =>
    match classify (formatMessage c.message) with
    | none => (.panicked c.hash, [.processing c.hash])
    | some .carry =>
      match carryFlow repo fs c with
      | (.error e, ops) => (.failed e, .processing c.hash :: ops)
      | (.ok _, ops) =>
        let r := runLoop repo fs formatMessage rest
        (r.1, .processing c.hash :: (ops ++ r.2))
    | some .drop =>
      let r := runLoop repo fs formatMessage rest
      (r.1, .processing c.hash :: .logDrop c.hash :: r.2)
    | some (.unknown a) =>
      let r := runLoop repo fs formatMessage rest
      (r.1, .processing c.hash :: .logUnknown c.hash a :: r.2)

/-- The ref Run branches from: `refs/remotes/upstream/master`. -/
def upstreamTargetRef : String := "refs/remotes/upstream/master"

/-- The ref Run merges: `openshift/master`. -/
def forkDefaultRef : String := "openshift/master"

/-- `fmt.Sprintf("rebase-%s", time.Now().Format(time.DateOnly))`; the
current date is a parameter of the embedding. -/
def branchName (date : String) : String := "rebase-" ++ date

/-- Embedding of `Apply.Run`: open the repository, read the carries,
create the dated rebase branch from the upstream ref, merge the fork
default ref, then process each commit; any error halts the run with its
(possibly wrapped) error.  The second component is the operation trace. -/
def run (port : LogPort) (repo : RepoOps) (fs : Fs)
    (formatMessage : String → String) (date : String) : RunOutcome × List Op :=
  match port.openGit with
  | .error e => (.failed e, [])
  | .ok _ =>
    match port.getCommits with
    | .error e => (.failed (.wrapped "Error reading carries" e), [.getCommits])
    | .ok commits =>
      match repo.createBranch (branchName date) upstreamTargetRef with
      | .error e =>
        (.failed (.wrapped "Error creating rebase branch" e),
         [.getCommits, .createBranch (branchName date) upstreamTargetRef])
      | .ok _ =>
        match repo.merge forkDefaultRef with
        | .error e =>
          (.failed (.wrapped "Error creating rebase branch" e),
           [.getCommits, .createBranch (branchName date) upstreamTargetRef,
            .merge forkDefaultRef])
        | .ok _ =>
          let r := runLoop repo fs formatMessage commits
          (r.1, .getCommits :: .createBranch (branchName date) upstreamTargetRef ::
                .merge forkDefaultRef :: r.2)

/-! ## git.Log -/

/-- Embedding of `git.Log(from, stopAtHash)`.  The backend commit iterator
(whose starting point is selected by `from`) is modeled as the list of
commits it would yield in order; iteration appends each commit and breaks
right after appending one whose hash equals `stopAtHash`; reaching the end
of the iterator (`io.EOF`) returns everything accumulated. -/
def Log (stopAtHash : String) : List Commit → List Commit
  | [] => []
  | c :: rest =>
    c :: (if c.hash = stopAtHash then [] else Log stopAtHash rest)

/-! ## git.CheckRemotes -/

/-- strings.Contains on char lists: `pat` occurs contiguously in the list. -/
def containsSub (pat : List Char) : List Char → Bool
  | [] => pat.isEmpty
  | c :: rest => pat.isPrefixOf (c :: rest) || containsSub pat rest

/-- `strings.Contains(s, pat)`. -/
def strContains (s pat : String) : Bool := containsSub pat.data s.data

/-- A configured git remote: its name and its URL list. -/
structure Remote where
  name : String
  urls : List String
deriving DecidableEq

/-- Embedding of `git.fetchURLForRemote`: resolve the remote by name (an
error if absent), require a nonempty URL list, and return the first URL —
the one fetch always uses. -/
def fetchURLForRemote (remotes : List Remote) (remoteName : String) :
    Except GErr String :=
  match remotes.find? (fun r => r.name == remoteName) with
  | none => .error (.remoteNotFound remoteName)
  | some r =>
    match r.urls with
    | [] => .error (.noFetchURLs remoteName)
    | u :: _ => .ok u

/-- The name/path pairs CheckRemotes iterates over. -/
def expectedRemotes : List (String × String) :=
  [("openshift", "github.com:openshift/kubernetes.git"),
   ("upstream", "github.com:kubernetes/kubernetes.git")]

/-- The range loop of CheckRemotes over the expected remotes. -/
def checkRemotesLoop (remotes : List Remote) :
    List (String × String) → Except GErr Unit
  | [] => .ok ()
  | (name, path) :: rest =>
    match fetchURLForRemote remotes name with
    | .error e => .error e
    | .ok fetchURL =>
      if strContains fetchURL path then checkRemotesLoop remotes rest
      else .error (.fetchURLMismatch name path)

/-- Embedding of `git.CheckRemotes`. -/
def checkRemotes (remotes : List Remote) : Except GErr Unit :=
  checkRemotesLoop remotes expectedRemotes

/-! ## Concrete fixtures used by counterexamples and witnesses -/

/-- A backend on which every call succeeds. -/
def okRepo : RepoOps where
  cherryPick := fun _ => .ok ()
  status := .ok ()
  abortCherryPick := .ok ()
  applyPatch := fun _ => .ok ()
  createBranch := fun _ _ => .ok ()
  merge := fun _ => .ok ()

/-- A filesystem on which every carry patch exists, rooted at `/work`. -/
def okFs : Fs where
  getwd := .ok "/work"
  stat := fun _ => true

/-- A commit-source on which opening succeeds and the log is empty. -/
def okPort : LogPort where
  openGit := .ok ()
  getCommits := .ok []

/-- A backend whose cherry-pick always conflicts and everything else
succeeds. -/
def conflictRepo : RepoOps :=
  { okRepo with cherryPick := fun _ => .error (.backend "conflict") }

/-- A filesystem holding no carry patches. -/
def emptyFs : Fs := { okFs with stat := fun _ => false }

/-! ## Helper lemmas -/

/-- Every char list is a Boolean prefix of itself. -/
theorem isPrefixOf_self (l : List Char) : l.isPrefixOf l = true := by
  induction l with
  | nil => rfl
  | cons a as ih => simp [List.isPrefixOf, ih]

/-- A char list occurs in any list that ends with it. -/
theorem containsSub_append_self (pre pat : List Char) :
    containsSub pat (pre ++ pat) = true := by
  induction pre with
  | nil =>
    cases pat with
    | nil => rfl
    | cons c cs => simp [containsSub, isPrefixOf_self]
  | cons c cs ih => simp [containsSub, ih]

/-- The carry patch path always contains the commit hash. -/
theorem strContains_carriesPath (cwd sha : String) :
    strContains (carriesPath cwd sha) sha = true := by
  have h : (carriesPath cwd sha).data = (cwd ++ "/carries/").data ++ sha.data := rfl
  unfold strContains
  rw [h]
  exact containsSub_append_self _ _

/-- The carryFlow trace never contains a commit-processing marker: those
are emitted only by the Run loop. -/
theorem carryFlow_no_processing (repo : RepoOps) (fs : Fs) (c : Commit)
    (sha : String) : Op.processing sha ∉ (carryFlow repo fs c).2 := by
  cases hcp : repo.cherryPick c.hash with
  | ok u => cases u; simp [carryFlow, hcp]
  | error e =>
    cases hst : repo.status with
    | error e1 => simp [carryFlow, hcp, hst]
    | ok u =>
      cases u
      cases hab : repo.abortCherryPick with
      | error e2 => simp [carryFlow, hcp, hst, hab]
      | ok u =>
        cases u
        cases hf : findFixedCarry fs c.hash with
        | error e3 => simp [carryFlow, hcp, hst, hab, hf]
        | ok patch =>
          cases hap : repo.applyPatch patch with
          | error e4 => simp [carryFlow, hcp, hst, hab, hf, hap]
          | ok u => cases u; simp [carryFlow, hcp, hst, hab, hf, hap]

/-! ## Claim theorems -/

/-- Claim C1 (code_bug): classification is claimed total, but on a message
containing no `UPSTREAM: <action>:` tag, `FindStringSubmatch` returns nil
and the unguarded `matches[lastIndex]` read in `actionFromMessage` panics
with an index-out-of-range runtime error (modeled as `none`), instead of
producing an Unknown classification. -/
theorem actionFromMessage_panics_on_untagged_message :
    actionFromMessage "fix the build" = none ∧
    classify "fix the build" = none := by decide

/-- Claim C7: when the direct cherry-pick of a commit succeeds, carryFlow
returns the direct-success outcome at once and its whole operation trace is
that single cherry-pick call: no status, abort, patch-store lookup or patch
application is performed. -/
theorem carryFlow_direct_success (repo : RepoOps) (fs : Fs) (c : Commit)
    (h : repo.cherryPick c.hash = .ok ()) :
    carryFlow repo fs c = (.ok .appliedDirect, [.cherryPick c.hash]) := by
  simp [carryFlow, h]

/-- Witness for claim C7 at a concrete backend and commit. -/
theorem carryFlow_direct_success_witness :
    carryFlow okRepo okFs ⟨"abc", "m"⟩ = (.ok .appliedDirect, [.cherryPick "abc"]) :=
  carryFlow_direct_success okRepo okFs ⟨"abc", "m"⟩ rfl

/-- A backend where the cherry-pick conflicts and the subsequent status
call fails too. -/
def statusFailRepo : RepoOps :=
  { conflictRepo with status := .error (.backend "status failed") }

/-- Claim C2 (counterexample): with a conflicting cherry-pick and a failing
status call, carryFlow returns the status error at once and never aborts
the in-progress cherry-pick, contradicting the claim that the abort runs
even when the status capture fails. -/
theorem carryFlow_skips_abort_when_status_fails :
    carryFlow statusFailRepo okFs ⟨"abc", "m"⟩ =
      (.error (.backend "status failed"), [.cherryPick "abc", .status]) ∧
    Op.abortCherryPick ∉ (carryFlow statusFailRepo okFs ⟨"abc", "m"⟩).2 :=
  ⟨rfl, by decide⟩

/-- Claim C2 (amended): when the cherry-pick of a carried commit fails and
the status capture succeeds, carryFlow aborts the in-progress cherry-pick
before any patch-store lookup — the trace starts with cherry-pick, status,
abort; when the status capture itself fails, carryFlow returns the status
error and the abort does not run. -/
theorem carryFlow_aborts_after_status (repo : RepoOps) (fs : Fs) (c : Commit)
    (e : GErr) (hcp : repo.cherryPick c.hash = .error e) :
    (repo.status = .ok () →
      ∃ rest, (carryFlow repo fs c).2 =
        [Op.cherryPick c.hash, Op.status, Op.abortCherryPick] ++ rest) ∧
    (∀ e', repo.status = .error e' →
      carryFlow repo fs c = (.error e', [.cherryPick c.hash, .status])) := by
  constructor
  · intro hst
    cases hab : repo.abortCherryPick with
    | error e2 => exact ⟨[], by simp [carryFlow, hcp, hst, hab]⟩
    | ok u =>
      cases u
      cases hf : findFixedCarry fs c.hash with
      | error e3 =>
        exact ⟨[.storeLookup c.hash, .logManual c.hash],
          by simp [carryFlow, hcp, hst, hab, hf]⟩
      | ok patch =>
        cases hap : repo.applyPatch patch with
        | error e4 =>
          exact ⟨[.storeLookup c.hash, .applyPatch patch],
            by simp [carryFlow, hcp, hst, hab, hf, hap]⟩
        | ok u =>
          cases u
          exact ⟨[.storeLookup c.hash, .applyPatch patch],
            by simp [carryFlow, hcp, hst, hab, hf, hap]⟩
  · intro e' hst
    simp [carryFlow, hcp, hst]

/-- Witness for the amended claim C2 at a concrete backend and commit. -/
theorem carryFlow_aborts_after_status_witness :
    ∃ rest, (carryFlow conflictRepo okFs ⟨"abc", "m"⟩).2 =
      [Op.cherryPick "abc", Op.status, Op.abortCherryPick] ++ rest :=
  (carryFlow_aborts_after_status conflictRepo okFs ⟨"abc", "m"⟩
    (.backend "conflict") rfl).1 rfl

/-- Claim C5: when a carried commit conflicts (and status, abort and the
working-directory resolution succeed), a patch stored at exactly the commit
hash key is looked up and applied: a successful application yields the
resolution outcome, a failing application is returned as the error with no
further operation after the apply, and a missing patch makes carryFlow fail
with the stat error for the carry path — a path containing the commit hash
— after logging the manual-intervention message for that hash. -/
theorem carryFlow_resolution_fallback (repo : RepoOps) (fs : Fs) (c : Commit)
    (cwd : String) (e : GErr)
    (hcp : repo.cherryPick c.hash = .error e)
    (hst : repo.status = .ok ())
    (hab : repo.abortCherryPick = .ok ())
    (hwd : fs.getwd = .ok cwd) :
    (fs.stat (carriesPath cwd c.hash) = true →
      (repo.applyPatch (carriesPath cwd c.hash) = .ok () →
        carryFlow repo fs c =
          (.ok .appliedViaResolution,
           [.cherryPick c.hash, .status, .abortCherryPick, .storeLookup c.hash,
            .applyPatch (carriesPath cwd c.hash)])) ∧
      (∀ e', repo.applyPatch (carriesPath cwd c.hash) = .error e' →
        carryFlow repo fs c =
          (.error e',
           [.cherryPick c.hash, .status, .abortCherryPick, .storeLookup c.hash,
            .applyPatch (carriesPath cwd c.hash)]))) ∧
    (fs.stat (carriesPath cwd c.hash) = false →
      carryFlow repo fs c =
        (.error (.statNotFound (carriesPath cwd c.hash)),
         [.cherryPick c.hash, .status, .abortCherryPick, .storeLookup c.hash,
          .logManual c.hash]) ∧
      strContains (carriesPath cwd c.hash) c.hash = true) := by
  constructor
  · intro hhit
    constructor
    · intro hap
      simp [carryFlow, findFixedCarry, hcp, hst, hab, hwd, hhit, hap]
    · intro e' hap
      simp [carryFlow, findFixedCarry, hcp, hst, hab, hwd, hhit, hap]
  · intro hmiss
    refine ⟨?_, strContains_carriesPath cwd c.hash⟩
    simp [carryFlow, findFixedCarry, hcp, hst, hab, hwd, hmiss]

/-- Witness for claim C5 at a concrete backend and commit. -/
theorem carryFlow_resolution_fallback_witness :
    carryFlow conflictRepo okFs ⟨"abc", "m"⟩ =
      (.ok .appliedViaResolution,
       [.cherryPick "abc", .status, .abortCherryPick, .storeLookup "abc",
        .applyPatch (carriesPath "/work" "abc")]) :=
  ((carryFlow_resolution_fallback conflictRepo okFs ⟨"abc", "m"⟩ "/work"
      (.backend "conflict") rfl rfl rfl rfl).1 rfl).1 rfl

/-- Claim C3 (counterexample): the switch in Run compares against the
literal action strings with angle brackets, so a message containing
`UPSTREAM: carry:` (without brackets) captures the tag `carry` and
classifies as Unknown, not Carry. -/
theorem classify_unbracketed_carry_is_unknown :
    classify "UPSTREAM: carry: fix" = some (.unknown "carry") ∧
    classify "UPSTREAM: carry: fix" ≠ some .carry := by decide

/-- Claim C3 (amended): classification is determined by the tag captured
from the first `UPSTREAM: <action>:` match in the message: `<carry>` yields
Carry, `<drop>` yields Drop, a decimal tag accepted by Atoi (such as `42`)
yields Carry, and any other captured tag yields Unknown carrying that tag;
a message with no tag at all does not classify (it panics, claim C1). -/
theorem classify_by_captured_tag (m : String) :
    (actionFromMessage m = some "<carry>" → classify m = some .carry) ∧
    (actionFromMessage m = some "<drop>" → classify m = some .drop) ∧
    (∀ a, actionFromMessage m = some a → atoiOk a = true →
      classify m = some .carry) ∧
    (∀ a, actionFromMessage m = some a → atoiOk a = false →
      a ≠ "<carry>" → a ≠ "<drop>" → classify m = some (.unknown a)) := by
  refine ⟨?_, ?_, ?_, ?_⟩
  · intro h
    have hn : atoiOk "<carry>" = false := by decide
    simp [classify, h, hn]
  · intro h
    have hn : atoiOk "<drop>" = false := by decide
    simp [classify, h, hn]
  · intro a h ha
    simp [classify, h, ha]
  · intro a h ha h1 h2
    simp [classify, h, ha, h1, h2]

/-- Witness for the amended claim C3 on one concrete message per branch. -/
theorem classify_by_captured_tag_witness :
    classify "UPSTREAM: <carry>: fix" = some .carry ∧
    classify "UPSTREAM: <drop>: del" = some .drop ∧
    classify "UPSTREAM: 42: pick" = some .carry ∧
    classify "UPSTREAM: revert: undo" = some (.unknown "revert") :=
  ⟨(classify_by_captured_tag "UPSTREAM: <carry>: fix").1 (by decide),
   (classify_by_captured_tag "UPSTREAM: <drop>: del").2.1 (by decide),
   (classify_by_captured_tag "UPSTREAM: 42: pick").2.2.1 "42" (by decide) (by decide),
   (classify_by_captured_tag "UPSTREAM: revert: undo").2.2.2 "revert"
     (by decide) (by decide) (by decide) (by decide)⟩

/-- Claim C6: when a commit classifies as carry and its carryFlow fails,
the Run loop halts with that error: the loop result does not depend on the
remaining queue, and the only commit-processing marker in the trace is the
failing commit's. -/
theorem runLoop_halts_on_carry_failure (repo : RepoOps) (fs : Fs)
    (f : String → String) (c : Commit) (rest : List Commit) (e : GErr)
    (ops : List Op)
    (hc : classify (f c.message) = some .carry)
    (hf : carryFlow repo fs c = (.error e, ops)) :
    runLoop repo fs f (c :: rest) = (.failed e, .processing c.hash :: ops) ∧
    (∀ rest', runLoop repo fs f (c :: rest') = runLoop repo fs f (c :: rest)) ∧
    (∀ sha, Op.processing sha ∈ (runLoop repo fs f (c :: rest)).2 →
      sha = c.hash) := by
  have hr : ∀ q : List Commit,
      runLoop repo fs f (c :: q) = (.failed e, .processing c.hash :: ops) := by
    intro q
    simp [runLoop, hc, hf]
  refine ⟨hr rest, fun rest' => (hr rest').trans (hr rest).symm, ?_⟩
  intro sha hmem
  rw [hr rest] at hmem
  rcases List.mem_cons.mp hmem with h | h
  · exact Op.processing.inj h
  · have hno := carryFlow_no_processing repo fs c sha
    rw [hf] at hno
    exact absurd h hno

/-- Witness for claim C6: a conflicting carry with no stored patch halts
the loop before the queued drop commit is processed. -/
theorem runLoop_halts_on_carry_failure_witness :
    runLoop conflictRepo emptyFs id
        [⟨"abc", "UPSTREAM: <carry>: x"⟩, ⟨"def", "UPSTREAM: <drop>: y"⟩] =
      (.failed (.statNotFound "/work/carries/abc"),
       [.processing "abc", .cherryPick "abc", .status, .abortCherryPick,
        .storeLookup "abc", .logManual "abc"]) :=
  (runLoop_halts_on_carry_failure conflictRepo emptyFs id
     ⟨"abc", "UPSTREAM: <carry>: x"⟩ [⟨"def", "UPSTREAM: <drop>: y"⟩]
     (.statNotFound "/work/carries/abc")
     [.cherryPick "abc", .status, .abortCherryPick, .storeLookup "abc",
      .logManual "abc"]
     (by decide) rfl).1

/-- Claim C8: a commit classified Drop or Unknown contributes only its
processing marker and a single log record to the trace — no cherry-pick,
status, abort or patch application — never fails the run, and the loop
continues with the remaining commits; the Unknown case records nothing
beyond its log line (no terminal outcome). -/
theorem runLoop_drop_unknown_no_tree_ops (repo : RepoOps) (fs : Fs)
    (f : String → String) (c : Commit) (rest : List Commit) :
    (classify (f c.message) = some .drop →
      runLoop repo fs f (c :: rest) =
        ((runLoop repo fs f rest).1,
         .processing c.hash :: .logDrop c.hash :: (runLoop repo fs f rest).2)) ∧
    (∀ a, classify (f c.message) = some (.unknown a) →
      runLoop repo fs f (c :: rest) =
        ((runLoop repo fs f rest).1,
         .processing c.hash :: .logUnknown c.hash a ::
           (runLoop repo fs f rest).2)) := by
  constructor
  · intro h
    simp [runLoop, h]
  · intro a h
    simp [runLoop, h]

/-- Witness for claim C8 on one concrete dropped and one concrete unknown
commit. -/
theorem runLoop_drop_unknown_no_tree_ops_witness :
    runLoop okRepo okFs id [⟨"d1", "UPSTREAM: <drop>: y"⟩] =
      (.ok, [.processing "d1", .logDrop "d1"]) ∧
    runLoop okRepo okFs id [⟨"u1", "UPSTREAM: revert: y"⟩] =
      (.ok, [.processing "u1", .logUnknown "u1" "revert"]) :=
  ⟨(runLoop_drop_unknown_no_tree_ops okRepo okFs id
      ⟨"d1", "UPSTREAM: <drop>: y"⟩ []).1 (by decide),
   (runLoop_drop_unknown_no_tree_ops okRepo okFs id
      ⟨"u1", "UPSTREAM: revert: y"⟩ []).2 "revert" (by decide)⟩

/-- Log yields an initial segment of the iterator. -/
theorem Log_isInitialSegment (stop : String) (l : List Commit) :
    ∃ t, Log stop l ++ t = l := by
  induction l with
  | nil => exact ⟨[], rfl⟩
  | cons c rest ih =>
    by_cases h : c.hash = stop
    · exact ⟨rest, by simp [Log, h]⟩
    · obtain ⟨t, ht⟩ := ih
      exact ⟨t, by simp [Log, h, ht]⟩

/-- With no matching hash, Log drains the whole iterator. -/
theorem Log_no_match (stop : String) (l : List Commit)
    (h : ∀ c ∈ l, c.hash ≠ stop) : Log stop l = l := by
  induction l with
  | nil => rfl
  | cons c rest ih =>
    have hc : c.hash ≠ stop := h c (List.mem_cons_self c rest)
    have hrest : ∀ d ∈ rest, d.hash ≠ stop :=
      fun d hd => h d (List.mem_cons_of_mem c hd)
    simp [Log, hc, ih hrest]

/-- Log stops right after the first matching commit, inclusively. -/
theorem Log_first_match (stop : String) (pre : List Commit) (c : Commit)
    (post : List Commit) (hc : c.hash = stop)
    (hpre : ∀ d ∈ pre, d.hash ≠ stop) :
    Log stop (pre ++ c :: post) = pre ++ [c] := by
  induction pre with
  | nil => simp [Log, hc]
  | cons d ds ih =>
    have hd : d.hash ≠ stop := hpre d (List.mem_cons_self d ds)
    have hds : ∀ x ∈ ds, x.hash ≠ stop :=
      fun x hx => hpre x (List.mem_cons_of_mem d hx)
    simp [Log, hd, ih hds]

/-- Claim C9: Log returns an initial segment of the backend iterator order;
when no commit hash equals the stop hash it returns the entire log, and
when one does, the result is everything up to and including the first
matching commit — the inclusive bound — which is the final element. -/
theorem Log_stop_inclusive (stop : String) (l : List Commit) :
    (∃ t, Log stop l ++ t = l) ∧
    ((∀ c ∈ l, c.hash ≠ stop) → Log stop l = l) ∧
    (∀ pre c post, l = pre ++ c :: post → c.hash = stop →
      (∀ d ∈ pre, d.hash ≠ stop) →
      Log stop l = pre ++ [c] ∧ (Log stop l).getLast? = some c) := by
  refine ⟨Log_isInitialSegment stop l, Log_no_match stop l, ?_⟩
  intro pre c post hl hc hpre
  have h1 : Log stop l = pre ++ [c] := hl ▸ Log_first_match stop pre c post hc hpre
  refine ⟨h1, ?_⟩
  rw [h1]
  simp

/-- Witness for claim C9 on a concrete three-commit log with a stop hash in
the middle, and on one with no matching hash. -/
theorem Log_stop_inclusive_witness :
    Log "b" [⟨"a", "1"⟩, ⟨"b", "2"⟩, ⟨"c", "3"⟩] = [⟨"a", "1"⟩, ⟨"b", "2"⟩] ∧
    Log "z" [⟨"a", "1"⟩, ⟨"b", "2"⟩, ⟨"c", "3"⟩] =
      [⟨"a", "1"⟩, ⟨"b", "2"⟩, ⟨"c", "3"⟩] :=
  ⟨((Log_stop_inclusive "b" [⟨"a", "1"⟩, ⟨"b", "2"⟩, ⟨"c", "3"⟩]).2.2
      [⟨"a", "1"⟩] ⟨"b", "2"⟩ [⟨"c", "3"⟩] rfl rfl (by decide)).1,
   (Log_stop_inclusive "z" [⟨"a", "1"⟩, ⟨"b", "2"⟩, ⟨"c", "3"⟩]).2.1 (by decide)⟩

/-- The loop of CheckRemotes succeeds exactly when every expected remote
resolves to a configuration whose first URL contains the expected path. -/
theorem checkRemotesLoop_ok_iff (remotes : List Remote)
    (l : List (String × String)) :
    checkRemotesLoop remotes l = .ok () ↔
      ∀ p ∈ l, ∃ r, remotes.find? (fun x => x.name == p.1) = some r ∧
        ∃ u, r.urls.head? = some u ∧ strContains u p.2 = true := by
  induction l with
  | nil => simp [checkRemotesLoop]
  | cons p rest ih =>
    obtain ⟨name, path⟩ := p
    cases hf : remotes.find? (fun x => x.name == name) with
    | none => simp [checkRemotesLoop, fetchURLForRemote, hf]
    | some r =>
      cases hu : r.urls with
      | nil => simp [checkRemotesLoop, fetchURLForRemote, hf, hu]
      | cons u us =>
        cases hc : strContains u path with
        | false => simp [checkRemotesLoop, fetchURLForRemote, hf, hu, hc]
        | true => simp [checkRemotesLoop, fetchURLForRemote, hf, hu, hc, ih]

/-- Claim C10: CheckRemotes succeeds exactly when remotes named `openshift`
and `upstream` both resolve, each has a first configured URL, and those
first URLs contain the respective expected repository paths; only the first
URL of each remote enters the condition. -/
theorem checkRemotes_ok_iff (remotes : List Remote) :
    checkRemotes remotes = .ok () ↔
      ((∃ r, remotes.find? (fun x => x.name == "openshift") = some r ∧
        ∃ u, r.urls.head? = some u ∧
          strContains u "github.com:openshift/kubernetes.git" = true) ∧
       (∃ r, remotes.find? (fun x => x.name == "upstream") = some r ∧
        ∃ u, r.urls.head? = some u ∧
          strContains u "github.com:kubernetes/kubernetes.git" = true)) := by
  rw [checkRemotes, checkRemotesLoop_ok_iff]
  simp [expectedRemotes]

/-- A remotes configuration satisfying both expected entries, with a second
URL on the openshift remote that is never consulted. -/
def goodRemotes : List Remote :=
  [⟨"openshift", ["git@github.com:openshift/kubernetes.git", "unused"]⟩,
   ⟨"upstream", ["git@github.com:kubernetes/kubernetes.git"]⟩]

/-- Witness for claim C10 on a concrete remotes configuration. -/
theorem checkRemotes_ok_iff_witness : checkRemotes goodRemotes = .ok () :=
  (checkRemotes_ok_iff goodRemotes).mpr
    ⟨⟨⟨"openshift", ["git@github.com:openshift/kubernetes.git", "unused"]⟩, rfl,
      "git@github.com:openshift/kubernetes.git", rfl, by decide⟩,
     ⟨⟨"upstream", ["git@github.com:kubernetes/kubernetes.git"]⟩, rfl,
      "git@github.com:kubernetes/kubernetes.git", rfl, by decide⟩⟩

/-- Claim C4 (counterexample): on a backend where every call succeeds, the
run trace shows the commit log being read before the rebase branch is
created and merged, so branch creation and merge do not precede the log
enumeration. -/
theorem run_reads_log_before_branching :
    (run okPort okRepo okFs id "2024-01-01").2 =
      [.getCommits,
       .createBranch "rebase-2024-01-01" "refs/remotes/upstream/master",
       .merge "openshift/master"] ∧
    (run okPort okRepo okFs id "2024-01-01").2.indexOf Op.getCommits <
      (run okPort okRepo okFs id "2024-01-01").2.indexOf
        (Op.createBranch "rebase-2024-01-01" "refs/remotes/upstream/master") :=
  ⟨rfl, by decide⟩

/-- Claim C4 (amended): once the commit log has been read, the run creates
the dated branch from the upstream target ref and then merges the fork
default branch, both before any per-commit processing; a failure of either
step halts the run immediately with a wrapped contextual error. -/
theorem run_branches_then_merges_before_loop (port : LogPort) (repo : RepoOps)
    (fs : Fs) (f : String → String) (date : String) (commits : List Commit)
    (hopen : port.openGit = .ok ())
    (hlog : port.getCommits = .ok commits) :
    (∀ e, repo.createBranch (branchName date) upstreamTargetRef = .error e →
      run port repo fs f date =
        (.failed (.wrapped "Error creating rebase branch" e),
         [.getCommits, .createBranch (branchName date) upstreamTargetRef])) ∧
    (∀ e, repo.createBranch (branchName date) upstreamTargetRef = .ok () →
      repo.merge forkDefaultRef = .error e →
      run port repo fs f date =
        (.failed (.wrapped "Error creating rebase branch" e),
         [.getCommits, .createBranch (branchName date) upstreamTargetRef,
          .merge forkDefaultRef])) ∧
    (repo.createBranch (branchName date) upstreamTargetRef = .ok () →
      repo.merge forkDefaultRef = .ok () →
      run port repo fs f date =
        ((runLoop repo fs f commits).1,
         .getCommits :: .createBranch (branchName date) upstreamTargetRef ::
           .merge forkDefaultRef :: (runLoop repo fs f commits).2)) := by
  refine ⟨?_, ?_, ?_⟩
  · intro e hb
    simp [run, hopen, hlog, hb]
  · intro e hb hm
    simp [run, hopen, hlog, hb, hm]
  · intro hb hm
    simp [run, hopen, hlog, hb, hm]

/-- A backend whose branch creation fails. -/
def branchFailRepo : RepoOps :=
  { okRepo with createBranch := fun _ _ => .error (.backend "branch exists") }

/-- Witness for the amended claim C4: a failing branch creation halts a
concrete run with the wrapped error right after the log was read. -/
theorem run_branches_then_merges_before_loop_witness :
    run okPort branchFailRepo okFs id "2024-01-01" =
      (.failed (.wrapped "Error creating rebase branch" (.backend "branch exists")),
       [.getCommits,
        .createBranch "rebase-2024-01-01" "refs/remotes/upstream/master"]) :=
  (run_branches_then_merges_before_loop okPort branchFailRepo okFs id
     "2024-01-01" [] rfl rfl).1 (.backend "branch exists") rfl

end OpenshiftRebase
